import Mathlib

/-!
Verification development for the helix-log structured logging pipeline.

The JavaScript sources are shallowly embedded:

* JavaScript values are the inductive type `JsVal` (arrays and objects
  through the mutual types `JsArr`, `JsObj`, `JsPairs`); `Map`, `Set`,
  `Date`/`BigDate`, `URL` and `Error` values get their own constructors,
  carrying exactly the data the embedded functions consume (a date is
  represented by its ISO rendering, an error by its name, message, stack
  and code). Values with custom serialization hooks are outside the
  modelled fragment.
* Log messages (plain JS objects used as records) are finitely supported
  maps `Rec := String → Option JsVal`; `some JsVal.undef` models a key
  that is present with value `undefined`, `none` models an absent key.
* Code that may throw synchronously or reject asynchronously is embedded
  in `Except JsErr`; `await` inside the dispatch wrapper collapses both
  failure modes into the single `Except.error` channel, which is faithful
  to how `__handleLoggingExceptions` observes them.
* Machine numbers in the `BigDate` arithmetic are embedded as `Int`/`Nat`
  (the values involved stay far below 2^53, where JS doubles are exact)
  and the arbitrary-precision `big.js` decimals as `ℚ`.
-/

/-! ## JavaScript value model -/

mutual

/-- A JavaScript value, restricted to the fragment the logging pipeline
manipulates. -/
inductive JsVal where
  | undef : JsVal
  | null : JsVal
  | bool (b : Bool) : JsVal
  | num (q : ℚ) : JsVal
  | str (s : String) : JsVal
  /-- A `Date` or `BigDate` instance, represented by its ISO-8601 rendering
  (the only observation the embedded functions make of it). -/
  | date (iso : String) : JsVal
  /-- A `URL` instance, represented by its string form. -/
  | url (href : String) : JsVal
  /-- An ES6 `Map`, as its entry list. -/
  | map (entries : JsPairs) : JsVal
  /-- An ES6 `Set`, as its element list. -/
  | set (elems : JsArr) : JsVal
  /-- An `Error` (or subclass) instance: class name, `name`, `message`,
  `stack` and `code` (`JsVal.undef` when the property is not set). -/
  | err (etype ename emessage estack : String) (ecode : JsVal) : JsVal
  | arr (xs : JsArr) : JsVal
  | obj (kvs : JsObj) : JsVal
  deriving DecidableEq

/-- A JavaScript array of `JsVal`. -/
inductive JsArr where
  | nil : JsArr
  | cons (v : JsVal) (rest : JsArr) : JsArr
  deriving DecidableEq

/-- The entry list of a plain JavaScript object (string keys). -/
inductive JsObj where
  | nil : JsObj
  | cons (k : String) (v : JsVal) (rest : JsObj) : JsObj
  deriving DecidableEq

/-- The entry list of an ES6 `Map` (arbitrary keys). -/
inductive JsPairs where
  | nil : JsPairs
  | cons (k v : JsVal) (rest : JsPairs) : JsPairs
  deriving DecidableEq

end

/-- JavaScript truthiness of a value. (`NaN`, which is falsy, is not part
of the numeric fragment modelled by `ℚ`.) -/
def JsVal.truthy : JsVal → Bool
  | .undef => false
  | .null => false
  | .bool b => b
  | .num q => decide (q ≠ 0)
  | .str s => decide (s ≠ "")
  | _ => true

/-- Truthiness of a possibly-absent value: reading an absent property
yields `undefined`, which is falsy. -/
def JsVal.truthyOpt : Option JsVal → Bool
  | none => false
  | some v => v.truthy

/-- A thrown JavaScript value (exceptions and promise rejections carry
arbitrary values). -/
abbrev JsErr := JsVal

/-- A plain JavaScript object used as a record (a log message, a field
map): the finitely supported map from property names to values. `none` is
an absent key, `some JsVal.undef` a key present with value `undefined`. -/
abbrev Rec := String → Option JsVal

/-- The record with no fields. -/
def emptyRec : Rec := fun _ => none

/-- Build a record from an association list (first binding wins; the
literals written below have distinct keys). -/
def recOfList (l : List (String × JsVal)) : Rec := fun k => l.lookup k

/-- Object spread `{...a, ...b}`, observed through property lookup: a key
explicitly present in `b` overrides `a`, keys only present in `a` are
kept. -/
def mergeRec (a b : Rec) : Rec := fun k =>
  match b k with
  | some v => some v
  | none => a k

/-! ## utils.js -/

/-- The level table of `utils.js` (`__loglevelMap`): the superset of log
levels supported by console, bunyan and winston; lower numbers are more
pressing. -/
def __loglevelMap : String → Option ℕ
  | "fatal" => some 0
  | "error" => some 1
  | "warn" => some 2
  | "info" => some 3
  | "verbose" => some 4
  | "debug" => some 5
  | "trace" => some 6
  | "silly" => some 7
  | _ => none

/-- `numericLogLevel(name)`: the numeric log level, throwing an `Error`
for an invalid name. -/
def numericLogLevel (name : String) : Except JsErr ℕ :=
  match __loglevelMap name with
  | some r => .ok r
  | none => .error (.str ("Not a valid log level: " ++ name))

/-- `numericLogLevel` applied to an arbitrary (possibly absent) property
value, as in `numericLogLevel(fields.level)`: a non-string value is
coerced to its string form for the lookup, and no such coercion ever hits
one of the eight level names, so only genuine level strings succeed. -/
def jsLevelOf : Option JsVal → Except JsErr ℕ
  | some (.str s) => numericLogLevel s
  | some _v => .error (.str "Not a valid log level (non-string value)")
  | none => .error (.str "Not a valid log level: undefined")

/-- The sentinel text of the error-handling debounce. -/
def errorMsgText : String := "Encountered exception while logging!"

/-- The sentinel display sequence `[errorMsg]` the debounce compares
against. -/
def sentinelMessage : JsVal := .arr (.cons (.str errorMsgText) .nil)

/-- The diagnostic record emitted by
`error.fields(errorMsg, {application, subsystem, exception, logger})`:
an error-level message whose display sequence is the sentinel, carrying
the original failure. (The `timestamp` default and the `logger` reference
are not modelled; the theorems below only inspect the fields kept here.) -/
def loggingErrorReport (e : JsErr) : Rec :=
  recOfList [("level", .str "error"),
             ("message", sentinelMessage),
             ("application", .str "infrastructure"),
             ("subsystem", .str "helix-log-error-handling"),
             ("exception", e)]

/-- What the dispatch wrapper hands back: whether the wrapped code
completed (and its value), and the deferred diagnostic message it emitted,
if any. -/
structure HandleResult (σ : Type) where
  completed : Option σ
  diagnostic : Option Rec

/-- `__handleLoggingExceptions(fields, logger, code)` of `utils.js`: run
the code, catch any exception or rejection; on failure emit the diagnostic
report after a one-tick deferral unless the original message's display
sequence already equals the sentinel (`!fields.message ||
!eq(fields.message, [errorMsg])`). The codomain `Except JsErr _` is the
exception channel of the caller of `log()`; the wrapper itself never uses
it. -/
def __handleLoggingExceptions {σ : Type} (fields : Rec) (code : Except JsErr σ) :
    Except JsErr (HandleResult σ) :=
  .ok <|
    match code with
    | .ok r => { completed := some r, diagnostic := none }
    | .error e =>
      if !(JsVal.truthyOpt (fields "message")) || !(decide (fields "message" = some sentinelMessage)) then
        { completed := none, diagnostic := some (loggingErrorReport e) }
      else
        { completed := none, diagnostic := none }

/-! ## LoggerBase.js (and FormattedLoggerBase.js) -/

/-- Construction state of a logger built on `LoggerBase`, with the
constructor defaults: `level = silly`, `defaultFields = {}`,
`filter = identity`. The filter may throw (`Except.error`) and may return
`undefined` (`none`) to drop the message. -/
structure LoggerConfig where
  level : JsVal := .str "silly"
  defaultFields : Rec := emptyRec
  filter : Rec → Except JsErr (Option Rec) := fun r => .ok (some r)

/-- The argument list handed to the sink-specific `_logImpl`: the merged
record for a `LoggerBase` sink, or `(payload, fields)` for a
`FormattedLoggerBase` sink (the source hands the formatter output plus the
filtered — not the merged — record as second argument). -/
inductive SinkCall where
  | plain (merged : Rec)
  | formatted (payload : JsVal) (fields : Rec)

/-- The body of the async closure in `LoggerBase.__logWithFormatter`:
apply the filter, drop on `undefined`, gate on the numeric levels
(message level first, as the source evaluates left to right), merge the
default fields under the filtered message, then hand the result — through
the formatter for formatted sinks — to `_logImpl`. Returns `none` when
the message was dropped, otherwise the sink call made and the sink's
result. -/
def __logBody {σ : Type} (cfg : LoggerConfig)
    (formatter : Option (Rec → Except JsErr JsVal))
    (logImpl : SinkCall → Except JsErr σ) (fields_ : Rec) :
    Except JsErr (Option (SinkCall × σ)) := do
  let fields? ← cfg.filter fields_
  match fields? with
  | none => pure none
  | some fields =>
    let lvlMsg ← jsLevelOf (fields "level")
    let lvlCfg ← jsLevelOf (some cfg.level)
    if lvlMsg ≤ lvlCfg then
      match formatter with
      | none =>
        let call := SinkCall.plain (mergeRec cfg.defaultFields fields)
        let r ← logImpl call
        pure (some (call, r))
      | some fmt =>
        let payload ← fmt (mergeRec cfg.defaultFields fields)
        let call := SinkCall.formatted payload fields
        let r ← logImpl call
        pure (some (call, r))
    else
      pure none

/-- `LoggerBase.log(fields)`: the pipeline body without a formatter, run
inside the dispatch wrapper. -/
def LoggerBase.log {σ : Type} (cfg : LoggerConfig)
    (logImpl : SinkCall → Except JsErr σ) (fields_ : Rec) :
    Except JsErr (HandleResult (Option (SinkCall × σ))) :=
  __handleLoggingExceptions fields_ (__logBody cfg none logImpl fields_)

/-- `FormattedLoggerBase.log(fields)`: the pipeline body with the
configured formatter, run inside the dispatch wrapper. -/
def FormattedLoggerBase.log {σ : Type} (cfg : LoggerConfig)
    (formatter : Rec → Except JsErr JsVal)
    (logImpl : SinkCall → Except JsErr σ) (fields_ : Rec) :
    Except JsErr (HandleResult (Option (SinkCall × σ))) :=
  __handleLoggingExceptions fields_ (__logBody cfg (some formatter) logImpl fields_)

/-! ## MultiLogger (ConsoleLogger.js source file) -/

/-- A child logger of a fan-out: anything exposing `log(message)`, which
may throw synchronously or reject asynchronously. -/
structure Child where
  log : Rec → Except JsErr Unit

/-- `MultiLogger._logImpl(fields)`: iterate the children (a `dict`
snapshot, in insertion order) and run each `sub.log(fields)` inside its
own dispatch wrapper, so a failing child is contained and the iteration
proceeds. The trace records, per child in order, the record it was handed
and its wrapper result. (`MultiLogger` derives from `LoggerBase`, so the
sink call is always `plain`.) -/
def MultiLogger._logImpl (children : List Child) :
    SinkCall → Except JsErr (List (Rec × Except JsErr (HandleResult Unit)))
  | .plain fields =>
    .ok (children.map fun sub => (fields, __handleLoggingExceptions fields (sub.log fields)))
  | .formatted _ _ => .ok []

/-- `MultiLogger.log(message)` with the given construction options
(`new MultiLogger(loggers)` leaves them at the `LoggerBase` defaults). -/
def MultiLogger.log (children : List Child) (cfg : LoggerConfig := {}) (m : Rec) :
    Except JsErr (HandleResult (Option (SinkCall × List (Rec × Except JsErr (HandleResult Unit))))) :=
  LoggerBase.log cfg (MultiLogger._logImpl children) m

/-- A sequence of `MultiLogger.log` calls, in call order (children are
stateless functions here, so the calls are independent and their order is
the list order). -/
def MultiLogger.run (children : List Child) (cfg : LoggerConfig := {}) (msgs : List Rec) :
    List (Except JsErr (HandleResult (Option (SinkCall × List (Rec × Except JsErr (HandleResult Unit)))))) :=
  msgs.map (MultiLogger.log children cfg)

/-- What one `MultiLogger.log` call delivered to child `i`: the record it
was handed, provided its `log` completed without failing. -/
def deliveredToChild (children : List Child) (cfg : LoggerConfig := {}) (m : Rec) (i : ℕ) :
    Option Rec :=
  match MultiLogger.log children cfg m with
  | .ok hr =>
    match hr.completed with
    | some (some (_, trace)) =>
      match trace.get? i with
      | some (f, .ok hr2) => if hr2.completed.isSome then some f else none
      | _ => none
    | _ => none
  | .error _ => none

/-- The messages child `i` received across a sequence of fan-out calls, in
call order. -/
def receivedByChild (children : List Child) (cfg : LoggerConfig := {}) (msgs : List Rec) (i : ℕ) :
    List Rec :=
  msgs.filterMap fun m => deliveredToChild children cfg m i

/-! ## big-date.js -/

/-- `_calcHrtimeOff`, with the two back-to-back clock samples passed
explicitly: `h = [hs, hn]` the monotonic reading (seconds, nanoseconds
with `0 ≤ hn < 1e9`) and `dateMs` the wall-clock epoch milliseconds read
immediately after. Returns the `[msOffset, nsOffset]` calibration pair. -/
def _calcHrtimeOff (hs hn : ℕ) (dateMs : ℤ) : ℤ × ℕ :=
  (dateMs - ((hs : ℤ) * 1000 + (hn : ℤ) / 1000000), hn % 1000000)

/-- The fast-path arithmetic of the `BigDate` constructor: split the
monotonic sample `(hs, hn)` into whole milliseconds and the nanosecond
remainder, add the calibration offset componentwise, and carry
(`if (ns > 1e6) { ms += 1; ns %= 1e6; }` — note the strict comparison in
the source). Returns the stored `Date` milliseconds and `_frac`. -/
def bigDateNowRaw (hs hn : ℕ) (msOff : ℤ) (nsOff : ℕ) : ℤ × ℕ :=
  let ms : ℤ := (hs : ℤ) * 1000 + (hn : ℤ) / 1000000
  let ns : ℕ := hn % 1000000
  let ms : ℤ := ms + msOff
  let ns : ℕ := ns + nsOff
  if ns > 1000000 then (ms + 1, ns % 1000000) else (ms, ns)

/-- The state of a constructed `BigDate`: the millisecond epoch value the
`Date` base stores, and the `_frac` nanosecond remainder (`big.js`
decimals embedded as `ℚ`, since `_initString`/`_initMillis` can produce
non-integer remainders). -/
structure BigDateRep where
  ms : ℤ
  frac : ℚ
  deriving DecidableEq

/-- `preciseTime()`: `Big(this._frac).mul(1e-6).plus(super.getTime())`,
the epoch milliseconds with full precision. -/
def BigDate.preciseTime (d : BigDateRep) : ℚ := d.frac * (1 / 1000000) + (d.ms : ℚ)

/-- The value of the fractional-digits string `toISOString` extracts from
`String(preciseTime().mul(1e-3))` by dropping everything up to (and
including) the first character matched by the unescaped-dot regexp
`^[^.]+.`: for every value `big.js` prints in plain decimal notation
(`x = 0` or `|x| ≥ 1e-6`; smaller magnitudes print exponentially and are
outside this model), the digits after the decimal point of `|x|`, i.e.
`Int.fract |x|` (an integer prints without a dot, and the regexp then eats
the whole rendering, leaving the empty digit string, value 0). -/
def bigDecimalsVal (x : ℚ) : ℚ := Int.fract |x|

/-- `toISOString()`, abstracted to the data that determines the rendered
string: the seconds slot of the `Date`-rendered part (the floor of the
stored epoch milliseconds over 1000) and the value of the fractional
digit string computed from `preciseTime().mul(1e-3)`. The rendering is
injective in this pair (the digit string is canonical: trailing zeros
stripped by `big.js`, then padded to at least nine digits), so two
instances render identically iff their pairs are equal. -/
def BigDate.toISOPair (d : BigDateRep) : ℤ × ℚ :=
  (⌊(d.ms : ℚ) / 1000⌋, bigDecimalsVal (BigDate.preciseTime d * (1 / 1000)))

/-- `big.js` `mod`: for the non-negative operands used here,
`x.mod(m) = x − m·⌊x/m⌋`. -/
def bigMod (x m : ℚ) : ℚ := x - m * ⌊x / m⌋

/-- `_initString` applied to a string this class itself rendered,
abstracted by the pair `(secEpoch, dval)` of `BigDate.toISOPair`:
`new Date(s)` keeps millisecond precision (the first three fractional
digits, truncating the rest), and `_frac` is
`Big(secLit).mul(1e9).mod(1e6)` where `secLit` is the seconds-of-minute
literal `SS.ddd…` of the string (`SS = secEpoch mod 60`, non-negative
remainder, since the rendered minute boundaries sit at multiples of 60
seconds of epoch time). -/
def BigDate._initString (secEpoch : ℤ) (dval : ℚ) : BigDateRep :=
  { ms := secEpoch * 1000 + ⌊dval * 1000⌋
    frac := bigMod ((((secEpoch % 60 : ℤ) : ℚ) + dval) * 1000000000) 1000000 }

/-- Round trip of claim C6 in one step: render an instance and construct a
new one from the rendering. -/
def BigDate.reparse (a : BigDateRep) : BigDateRep :=
  BigDate._initString (BigDate.toISOPair a).1 (BigDate.toISOPair a).2

/-! ## serialize-json.js -/

mutual

/-- `jsonifyForLog` of `serialize-json.js`: the `JsonifyForLog` trait
dispatch. Primitives pass through unchanged; arrays and objects convert
element- and value-wise (the `map` over an object entry pair also visits
the string key, a no-op); dates use `toJSON()` (their ISO rendering);
URLs their string form; Maps and Sets become tagged
`{$type, values}` records with recursively converted contents; errors
become `{$type, name, message, stack, code}`. (Values relying on the wild
custom-hook fallbacks are outside the modelled fragment.) -/
def jsonifyForLog : JsVal → JsVal
  | .undef => .undef
  | .null => .null
  | .bool b => .bool b
  | .num q => .num q
  | .str s => .str s
  | .date iso => .str iso
  | .url href => .str href
  | .map entries =>
    .obj (.cons "$type" (.str "Map") (.cons "values" (.arr (jsonifyPairs entries)) .nil))
  | .set elems =>
    .obj (.cons "$type" (.str "Set") (.cons "values" (.arr (jsonifyArr elems)) .nil))
  | .err etype ename emessage estack ecode =>
    .obj (.cons "$type" (.str etype) (.cons "name" (.str ename)
      (.cons "message" (.str emessage) (.cons "stack" (.str estack)
        (.cons "code" ecode .nil)))))
  | .arr xs => .arr (jsonifyArr xs)
  | .obj kvs => .obj (jsonifyObj kvs)

/-- Elementwise conversion of an array (`list(map(what, jsonifyForLog))`). -/
def jsonifyArr : JsArr → JsArr
  | .nil => .nil
  | .cons v rest => .cons (jsonifyForLog v) (jsonifyArr rest)

/-- Valuewise conversion of an object (string keys are mapped by the same
trait, which is the identity on strings). -/
def jsonifyObj : JsObj → JsObj
  | .nil => .nil
  | .cons k v rest => .cons k (jsonifyForLog v) (jsonifyObj rest)

/-- Conversion of a Map entry list: each entry `[k, v]` becomes the
two-element array of the converted key and value. -/
def jsonifyPairs : JsPairs → JsArr
  | .nil => .nil
  | .cons k v rest =>
    .cons (.arr (.cons (jsonifyForLog k) (.cons (jsonifyForLog v) .nil))) (jsonifyPairs rest)

end

mutual

/-- Whether a value is built only from JSON-compatible parts: strings,
numbers, booleans, `null`/`undefined`, arrays of such values and plain
objects with such values. -/
def jsonCompatible : JsVal → Bool
  | .undef => true
  | .null => true
  | .bool _ => true
  | .num _ => true
  | .str _ => true
  | .arr xs => jsonCompatibleArr xs
  | .obj kvs => jsonCompatibleObj kvs
  | _ => false

/-- All elements JSON-compatible. -/
def jsonCompatibleArr : JsArr → Bool
  | .nil => true
  | .cons v rest => jsonCompatible v && jsonCompatibleArr rest

/-- All values JSON-compatible. -/
def jsonCompatibleObj : JsObj → Bool
  | .nil => true
  | .cons _ v rest => jsonCompatible v && jsonCompatibleObj rest

end

/-! ## utils.js message helpers and messageFormats.js -/

/-- Node's `util.inspect` (through the `tryInspect` wrapper of
`utils.js`), on the fragment of values the theorems evaluate it at:
integers render as their decimal digits, booleans, `null`, `undefined`
and dates as Node prints them, strings quoted. The layout of compound
values and non-integer numbers is not modelled (no theorem below inspects
one); `tryInspect` never throws on this fragment. -/
def tryInspect : JsVal → String
  | .num q => if q.den = 1 then toString q.num else toString q
  | .bool b => if b then "true" else "false"
  | .null => "null"
  | .undef => "undefined"
  | .str s => "\x27" ++ s ++ "\x27"
  | .date iso => iso
  | _ => "[object]"

/-- Serialization of the components of a message display sequence: string
components are kept verbatim, every other component is rendered by
`tryInspect`, and the results are joined with the empty separator. -/
def serializeComponents : JsArr → String
  | .nil => ""
  | .cons v rest =>
    (match v with
     | .str s => s
     | v => tryInspect v) ++ serializeComponents rest

/-- `serializeMessage(msg)` of `utils.js`: absent messages serialize to
the empty string; arrays componentwise as above; the technically-invalid
non-array messages are still handled (a warning is emitted, not modelled):
strings verbatim, anything else through `tryInspect`. -/
def serializeMessage : Option JsVal → String
  | none => ""
  | some (.arr xs) => serializeComponents xs
  | some (.str s) => s
  | some v => tryInspect v

/-- `makeLogMessage(fields)` of `utils.js`, with the `new BigDate()`
sample passed explicitly as its ISO rendering: supply the defaults
`level: info` and the fresh timestamp under the user fields, then wrap a
present non-array `message` into a one-element array. -/
def makeLogMessage (nowIso : String) (fields : Rec) : Rec :=
  let r : Rec :=
    mergeRec (recOfList [("level", .str "info"), ("timestamp", .date nowIso)]) fields
  match r "message" with
  | none => r
  | some (.arr _) => r
  | some v => fun k => if k = "message" then some (.arr (.cons v .nil)) else r k

/-- `messageFormatJson` of `messageFormats.js`:
`({message, ...fields}) => jsonifyForLog({message: serializeMessage(message), ...fields})`.
The rebuilt record replaces the `message` field by its serialized string
(adding the field, as the empty string, when it was absent) and keeps
every other field; `jsonifyForLog` then converts the field values. -/
def messageFormatJson (r : Rec) : Rec := fun k =>
  (if k = "message" then some (.str (serializeMessage (r "message"))) else r k).map
    jsonifyForLog

/-! ## Helper lemmas -/

/-- Merging under an empty default-field record is the identity. -/
theorem mergeRec_emptyRec (m : Rec) : mergeRec emptyRec m = m := by
  funext k
  unfold mergeRec emptyRec
  cases m k <;> rfl

/-- Every entry of the level table is at most the rank of `silly`. -/
theorem loglevelMap_le_silly (s : String) (l : ℕ) (h : __loglevelMap s = some l) : l ≤ 7 := by
  unfold __loglevelMap at h
  split at h <;> simp_all <;> omega

/-- Every successfully computed numeric level is at most the rank of
`silly`, the default configured level. -/
theorem jsLevelOf_le_silly (v : Option JsVal) (l : ℕ) (h : jsLevelOf v = .ok l) : l ≤ 7 := by
  match v with
  | none => exact absurd h (by simp [jsLevelOf])
  | some (.str s) =>
    rw [show jsLevelOf (some (.str s)) = numericLogLevel s from rfl] at h
    unfold numericLogLevel at h
    cases hm : __loglevelMap s with
    | none => rw [hm] at h; exact absurd h (by simp)
    | some r =>
      rw [hm] at h
      cases h
      exact loglevelMap_le_silly s l hm
  | some .undef => exact absurd h (by simp [jsLevelOf])
  | some .null => exact absurd h (by simp [jsLevelOf])
  | some (.bool b) => exact absurd h (by simp [jsLevelOf])
  | some (.num q) => exact absurd h (by simp [jsLevelOf])
  | some (.date i) => exact absurd h (by simp [jsLevelOf])
  | some (.url u) => exact absurd h (by simp [jsLevelOf])
  | some (.map es) => exact absurd h (by simp [jsLevelOf])
  | some (.set es) => exact absurd h (by simp [jsLevelOf])
  | some (.err a b c d e) => exact absurd h (by simp [jsLevelOf])
  | some (.arr xs) => exact absurd h (by simp [jsLevelOf])
  | some (.obj kvs) => exact absurd h (by simp [jsLevelOf])

/-! ## Claim theorems -/

/-- C1: for every logger built on `LoggerBase` (with or without a
formatter) and every message, `log()` never raises an exception to the
caller, whatever the configured filter, the formatter and the
sink-specific `_logImpl` do — including throwing synchronously or
rejecting asynchronously on every call: the failure is caught inside
`__handleLoggingExceptions`. -/
theorem log_never_throws {σ : Type} (cfg : LoggerConfig)
    (formatter : Rec → Except JsErr JsVal)
    (logImpl : SinkCall → Except JsErr σ) (m : Rec) :
    (LoggerBase.log cfg logImpl m).isOk = true ∧
    (FormattedLoggerBase.log cfg formatter logImpl m).isOk = true :=
  ⟨rfl, rfl⟩

/-- C3: when the work wrapped by the dispatch wrapper fails, a diagnostic
record whose display sequence is the single-element sentinel is emitted if
and only if the original message's `message` field is absent or differs
from the sentinel sequence; when the original message already carries the
sentinel, nothing is emitted. -/
theorem dispatch_debounce (fields : Rec) (e : JsErr) :
    ∃ hr, __handleLoggingExceptions (σ := Unit) fields (.error e) = .ok hr ∧
      (hr.diagnostic ≠ none ↔
        (fields "message" = none ∨ fields "message" ≠ some sentinelMessage)) ∧
      (∀ d, hr.diagnostic = some d → d "message" = some sentinelMessage) := by
  unfold __handleLoggingExceptions
  cases hm : fields "message" with
  | none =>
    refine ⟨_, rfl, ?_, ?_⟩
    · simp [JsVal.truthyOpt, hm]
    · intro d hd
      simp [JsVal.truthyOpt, hm] at hd
      subst hd
      rfl
  | some v =>
    by_cases hv : v = sentinelMessage
    · subst hv
      refine ⟨_, rfl, ?_, ?_⟩
      · simp [JsVal.truthyOpt, JsVal.truthy, sentinelMessage, hm, errorMsgText]
      · intro d hd
        simp [JsVal.truthyOpt, JsVal.truthy, sentinelMessage, hm, errorMsgText] at hd
    · refine ⟨_, rfl, ?_, ?_⟩
      · simp [JsVal.truthyOpt, hm, hv]
      · intro d hd
        simp [JsVal.truthyOpt, hm, hv] at hd
        subst hd
        rfl

/-- C8: if the configured filter returns `undefined` for an incoming
message, the message is dropped entirely: the severity gate does not run
(the configured level may even be invalid), neither formatter nor sink
write runs (both may be arbitrary, even always-throwing), the caller sees
no error, and no diagnostic record is emitted. -/
theorem filter_drop_silent {σ : Type} (cfg : LoggerConfig)
    (formatter : Rec → Except JsErr JsVal)
    (logImpl : SinkCall → Except JsErr σ) (m : Rec)
    (hf : cfg.filter m = .ok none) :
    LoggerBase.log cfg logImpl m = .ok { completed := some none, diagnostic := none } ∧
    FormattedLoggerBase.log cfg formatter logImpl m
      = .ok { completed := some none, diagnostic := none } := by
  constructor
  · unfold LoggerBase.log __logBody
    rw [hf]
    rfl
  · unfold FormattedLoggerBase.log __logBody
    rw [hf]
    rfl

/-- C8 witness: a dropping filter silences a logger whose level is invalid
and whose formatter and sink both always throw. -/
theorem filter_drop_silent_witness :
    ({ level := .null, filter := fun _ => .ok none } : LoggerConfig).filter emptyRec
        = .ok none ∧
    LoggerBase.log { level := .null, filter := fun _ => .ok none }
        (fun _ => (.error (.str "sink boom") : Except JsErr Unit)) emptyRec
      = .ok { completed := some none, diagnostic := none } :=
  ⟨rfl,
    (filter_drop_silent { level := .null, filter := fun _ => .ok none }
      (fun _ => .error (.str "formatter boom"))
      (fun _ => .error (.str "sink boom")) emptyRec rfl).1⟩

/-- Reduction of the exception monad: binding a success. -/
@[simp] theorem jsBind_ok {α β : Type} (a : α) (f : α → Except JsErr β) :
    (Bind.bind (Except.ok a : Except JsErr α) f) = f a := rfl

/-- Reduction of the exception monad: binding a failure. -/
@[simp] theorem jsBind_err {α β : Type} (e : JsErr) (f : α → Except JsErr β) :
    (Bind.bind (Except.error e : Except JsErr α) f) = .error e := rfl

/-- Reduction of the exception monad: mapping over a success. -/
@[simp] theorem jsMap_ok {α β : Type} (g : α → β) (a : α) :
    (Functor.map g (Except.ok a : Except JsErr α)) = .ok (g a) := rfl

/-- Reduction of the exception monad: mapping over a failure. -/
@[simp] theorem jsMap_err {α β : Type} (g : α → β) (e : JsErr) :
    (Functor.map g (Except.error e : Except JsErr α)) = .error e := rfl

/-- Reduction of the exception monad: a pure value is a success. -/
@[simp] theorem jsPure_ok {α : Type} (a : α) : (pure a : Except JsErr α) = .ok a := rfl

/-- The dispatch wrapper around succeeding code: the value is handed back
and no diagnostic is emitted. -/
@[simp] theorem handle_ok {σ : Type} (fields : Rec) (r : σ) :
    __handleLoggingExceptions fields (.ok r) = .ok { completed := some r, diagnostic := none } :=
  rfl

/-- C2: for every logger built on `LoggerBase` and every message accepted
by the filter, the message is delivered to the sink write if and only if
the numeric rank of its level is at most the numeric rank of the
configured level, the ranks being fatal 0, error 1, warn 2, info 3,
verbose 4, debug 5, trace 6 and silly 7 (so a logger configured at `warn`
delivers fatal, error and warn and drops the rest). -/
theorem severity_gate_iff (cfg : LoggerConfig) (m fields : Rec) (lm lc : ℕ)
    (hf : cfg.filter m = .ok (some fields))
    (hm : jsLevelOf (fields "level") = .ok lm)
    (hc : jsLevelOf (some cfg.level) = .ok lc) :
    (∃ hr, LoggerBase.log cfg (fun _ => (.ok () : Except JsErr Unit)) m = .ok hr ∧
      ((∃ call, hr.completed = some (some (call, ()))) ↔ lm ≤ lc)) ∧
    numericLogLevel "fatal" = .ok 0 ∧ numericLogLevel "error" = .ok 1 ∧
    numericLogLevel "warn" = .ok 2 ∧ numericLogLevel "info" = .ok 3 ∧
    numericLogLevel "verbose" = .ok 4 ∧ numericLogLevel "debug" = .ok 5 ∧
    numericLogLevel "trace" = .ok 6 ∧ numericLogLevel "silly" = .ok 7 := by
  refine ⟨?_, rfl, rfl, rfl, rfl, rfl, rfl, rfl, rfl⟩
  by_cases h : lm ≤ lc
  · refine ⟨{ completed := some (some (.plain (mergeRec cfg.defaultFields fields), ())),
              diagnostic := none }, ?_, ?_⟩
    · simp [LoggerBase.log, __logBody, hf, hm, hc, h]
    · exact iff_of_true ⟨_, rfl⟩ h
  · refine ⟨{ completed := some none, diagnostic := none }, ?_, ?_⟩
    · simp [LoggerBase.log, __logBody, hf, hm, hc, h]
    · refine iff_of_false ?_ h
      rintro ⟨call, hcall⟩
      simp at hcall

/-- C2 witness: a logger configured at `warn` does not deliver an `info`
message (rank 3 is not at most rank 2). -/
theorem severity_gate_iff_witness :
    ({ level := .str "warn" } : LoggerConfig).filter (recOfList [("level", .str "info")])
        = .ok (some (recOfList [("level", .str "info")])) ∧
    ((∃ hr, LoggerBase.log { level := .str "warn" } (fun _ => (.ok () : Except JsErr Unit))
          (recOfList [("level", .str "info")]) = .ok hr ∧
        ((∃ call, hr.completed = some (some (call, ()))) ↔ 3 ≤ 2)) ∧
      numericLogLevel "fatal" = .ok 0 ∧ numericLogLevel "error" = .ok 1 ∧
      numericLogLevel "warn" = .ok 2 ∧ numericLogLevel "info" = .ok 3 ∧
      numericLogLevel "verbose" = .ok 4 ∧ numericLogLevel "debug" = .ok 5 ∧
      numericLogLevel "trace" = .ok 6 ∧ numericLogLevel "silly" = .ok 7) :=
  ⟨rfl, severity_gate_iff { level := .str "warn" } (recOfList [("level", .str "info")])
    (recOfList [("level", .str "info")]) 3 2 rfl rfl rfl⟩

/-- C7: for a message accepted by the filter and passing the severity
gate, the record handed to the sink write is exactly
`{...defaultFields, ...filtered}` (for formatted sinks, the formatter is
applied to this merged record and its output handed to the write); a
field present in the filtered message overrides the same-named default
field, and a field only present in the defaults is added. -/
theorem merge_after_gate (cfg : LoggerConfig) (fmt : Rec → Except JsErr JsVal)
    (payload : JsVal) (m fields : Rec) (lm lc : ℕ)
    (hf : cfg.filter m = .ok (some fields))
    (hm : jsLevelOf (fields "level") = .ok lm)
    (hc : jsLevelOf (some cfg.level) = .ok lc)
    (hle : lm ≤ lc)
    (hp : fmt (mergeRec cfg.defaultFields fields) = .ok payload) :
    LoggerBase.log cfg (fun _ => (.ok () : Except JsErr Unit)) m =
      .ok { completed := some (some (.plain (mergeRec cfg.defaultFields fields), ())),
            diagnostic := none } ∧
    FormattedLoggerBase.log cfg fmt (fun _ => (.ok () : Except JsErr Unit)) m =
      .ok { completed := some (some (.formatted payload fields, ())),
            diagnostic := none } ∧
    (∀ k v, fields k = some v → mergeRec cfg.defaultFields fields k = some v) ∧
    (∀ k, fields k = none → mergeRec cfg.defaultFields fields k = cfg.defaultFields k) := by
  refine ⟨?_, ?_, ?_, ?_⟩
  · simp [LoggerBase.log, __logBody, hf, hm, hc, hle]
  · simp [FormattedLoggerBase.log, __logBody, hf, hm, hc, hle, hp]
  · intro k v hk
    unfold mergeRec
    rw [hk]
  · intro k hk
    unfold mergeRec
    rw [hk]

/-- C7 witness: with defaults `{app: x, extra: 1}` and the filtered
message `{level: info, app: y}`, the sink receives the merge in which
`app` is overridden by the message and `extra` is added. -/
theorem merge_after_gate_witness :
    LoggerBase.log { defaultFields := recOfList [("app", .str "x"), ("extra", .num 1)] }
        (fun _ => (.ok () : Except JsErr Unit))
        (recOfList [("level", .str "info"), ("app", .str "y")]) =
      .ok { completed := some (some (.plain
              (mergeRec (recOfList [("app", .str "x"), ("extra", .num 1)])
                (recOfList [("level", .str "info"), ("app", .str "y")])), ())),
            diagnostic := none } ∧
    mergeRec (recOfList [("app", .str "x"), ("extra", .num 1)])
        (recOfList [("level", .str "info"), ("app", .str "y")]) "app" = some (.str "y") ∧
    mergeRec (recOfList [("app", .str "x"), ("extra", .num 1)])
        (recOfList [("level", .str "info"), ("app", .str "y")]) "extra" = some (.num 1) :=
  ⟨(merge_after_gate { defaultFields := recOfList [("app", .str "x"), ("extra", .num 1)] }
      (fun _ => .ok .null) .null
      (recOfList [("level", .str "info"), ("app", .str "y")])
      (recOfList [("level", .str "info"), ("app", .str "y")]) 3 7
      rfl rfl rfl (by decide) rfl).1,
   (merge_after_gate { defaultFields := recOfList [("app", .str "x"), ("extra", .num 1)] }
      (fun _ => .ok .null) .null
      (recOfList [("level", .str "info"), ("app", .str "y")])
      (recOfList [("level", .str "info"), ("app", .str "y")]) 3 7
      rfl rfl rfl (by decide) rfl).2.2.1 "app" (.str "y") rfl,
   (merge_after_gate { defaultFields := recOfList [("app", .str "x"), ("extra", .num 1)] }
      (fun _ => .ok .null) .null
      (recOfList [("level", .str "info"), ("app", .str "y")])
      (recOfList [("level", .str "info"), ("app", .str "y")]) 3 7
      rfl rfl rfl (by decide) rfl).2.2.2 "extra" rfl⟩

/-- The dispatch wrapper around failing code never completes the work,
whatever the debounce decides. -/
theorem handle_err_completed {σ : Type} (fields : Rec) (e : JsErr) :
    ∃ hr, __handleLoggingExceptions (σ := σ) fields (.error e) = .ok hr ∧
      hr.completed = none := by
  refine ⟨if !(JsVal.truthyOpt (fields "message"))
        || !(decide (fields "message" = some sentinelMessage))
      then { completed := none, diagnostic := some (loggingErrorReport e) }
      else { completed := none, diagnostic := none }, rfl, ?_⟩
  split <;> rfl

/-- A fan-out call with default construction options on a message with a
valid level runs every child on exactly that message, in order. -/
theorem multiLog_default (children : List Child) (m : Rec) (l : ℕ)
    (h : jsLevelOf (m "level") = .ok l) :
    MultiLogger.log children {} m =
      .ok { completed := some (some (.plain m,
              children.map fun sub => (m, __handleLoggingExceptions m (sub.log m)))),
            diagnostic := none } := by
  have h7 : l ≤ 7 := jsLevelOf_le_silly _ _ h
  unfold MultiLogger.log LoggerBase.log __logBody
  rw [show ({} : LoggerConfig).filter m = .ok (some m) from rfl]
  rw [jsBind_ok]
  simp only [h, jsBind_ok]
  rw [show jsLevelOf (some ({} : LoggerConfig).level) = .ok 7 from rfl]
  simp only [jsBind_ok, if_pos h7]
  rw [mergeRec_emptyRec]
  rfl

/-- One fan-out call delivers the message to child `i` exactly when that
child's own `log` succeeds on it, failures of any other child
notwithstanding. -/
theorem deliveredToChild_eq (children : List Child) (m : Rec) (i : ℕ)
    (hi : i < children.length) (l : ℕ) (hl : jsLevelOf (m "level") = .ok l) :
    deliveredToChild children {} m i =
      if ((children.get ⟨i, hi⟩).log m).isOk then some m else none := by
  unfold deliveredToChild
  rw [multiLog_default children m l hl]
  show (match (children.map fun sub => (m, __handleLoggingExceptions m (sub.log m))).get? i with
        | some (f, .ok hr2) => if hr2.completed.isSome then some f else none
        | _ => none) = _
  rw [List.get?_map, List.get?_eq_get hi]
  show (match some (m, __handleLoggingExceptions m ((children.get ⟨i, hi⟩).log m)) with
        | some (f, .ok hr2) => if hr2.completed.isSome then some f else none
        | _ => none) = _
  cases hc : (children.get ⟨i, hi⟩).log m with
  | ok u =>
    cases u
    rw [handle_ok]
    rfl
  | error e =>
    obtain ⟨hr2, hh, hc2⟩ := handle_err_completed (σ := Unit) m e
    rw [hh]
    simp only [hc2, Option.isSome_none, Bool.false_eq_true, if_false]
    rfl

/-- C4: for every fan-out with any list of children and every sequence of
messages (each carrying a valid level), the messages a child receives
across the `MultiLogger.log` calls are exactly those on which its own
`log` succeeds, each exactly once and in call order — in particular a
child that never fails receives every message, regardless of any other
child throwing or rejecting on every call. -/
theorem fanout_isolated_delivery (children : List Child) (msgs : List Rec) (i : ℕ)
    (hi : i < children.length)
    (hlv : ∀ m ∈ msgs, ∃ l, jsLevelOf (m "level") = .ok l) :
    receivedByChild children {} msgs i =
      msgs.filter fun m => ((children.get ⟨i, hi⟩).log m).isOk := by
  induction msgs with
  | nil => rfl
  | cons m ms ih =>
    obtain ⟨l, hl⟩ := hlv m (List.mem_cons_self m ms)
    have hrest := fun m2 hm2 => hlv m2 (List.mem_cons_of_mem m hm2)
    unfold receivedByChild at *
    rw [List.filterMap_cons, List.filter_cons, deliveredToChild_eq children m i hi l hl]
    cases hc : ((children.get ⟨i, hi⟩).log m).isOk with
    | true => simp only [if_pos rfl, hc, if_true, ih hrest]
    | false => simp only [hc, if_false, Bool.false_eq_true, ih hrest]

/-- C4 witness: two fan-out calls over a sync-throwing child and a healthy
child deliver both messages, in order, to the healthy child. -/
theorem fanout_isolated_delivery_witness :
    receivedByChild
        [{ log := fun _ => .error (.str "boom") }, { log := fun _ => .ok () }] {}
        [recOfList [("level", .str "info")], recOfList [("level", .str "error")]] 1 =
      [recOfList [("level", .str "info")], recOfList [("level", .str "error")]] := by
  have h := fanout_isolated_delivery
    [{ log := fun _ => .error (.str "boom") }, { log := fun _ => .ok () }]
    [recOfList [("level", .str "info")], recOfList [("level", .str "error")]] 1
    (by decide)
    (by
      intro m hm
      simp only [List.mem_cons, List.not_mem_nil, or_false] at hm
      rcases hm with hm | hm
      · subst hm; exact ⟨3, rfl⟩
      · subst hm; exact ⟨1, rfl⟩)
  exact h.trans rfl

/-- C5 (failing input): at monotonic sample `(0, 500000)` — within the
claimed bounds `0 ≤ n < 1e9` — and calibration offset `(0, 500000)` —
within `0 ≤ nsOff < 1e6` — the summed nanosecond remainder is exactly
1,000,000, the source's strict `>` comparison skips the carry, and the
stored `_frac` is 1,000,000, violating the claimed invariant
`0 ≤ _frac < 1,000,000` (the claimed `≥`-carry would store `ms+1` and
`_frac = 0`). -/
theorem bigDateCarry_failing_input :
    bigDateNowRaw 0 500000 0 500000 = (0, 1000000) ∧
    ¬ (bigDateNowRaw 0 500000 0 500000).2 < 1000000 ∧
    500000 < 1000000000 ∧ 500000 < 1000000 := by decide

/-- C9 (counterexample): applying `messageFormatJson` to the literal
record `{message: [Hello , 42,  World], level: warn}` serializes the
display sequence and keeps the level, but the output carries no
`timestamp` field at all — the formatter adds none. -/
theorem messageFormatJson_no_timestamp :
    messageFormatJson (recOfList [("message",
        .arr (.cons (.str "Hello ") (.cons (.num 42) (.cons (.str " World") .nil)))),
        ("level", .str "warn")]) "message" = some (.str "Hello 42 World") ∧
    messageFormatJson (recOfList [("message",
        .arr (.cons (.str "Hello ") (.cons (.num 42) (.cons (.str " World") .nil)))),
        ("level", .str "warn")]) "level" = some (.str "warn") ∧
    messageFormatJson (recOfList [("message",
        .arr (.cons (.str "Hello ") (.cons (.num 42) (.cons (.str " World") .nil)))),
        ("level", .str "warn")]) "timestamp" = none :=
  ⟨rfl, rfl, rfl⟩

/-- C9 (amended): applying `messageFormatJson` to that record once it has
passed `makeLogMessage` — which is what the pipeline serializes, and the
only way a timestamp enters a message — yields `message: Hello 42 World`
(strings verbatim, the number rendered by inspection, concatenated),
`level: warn` (the explicit level overrides the `info` default), and a
`timestamp` field holding the ISO-8601 rendering of the sampled
`BigDate`. -/
theorem messageFormatJson_normalized (nowIso : String) :
    messageFormatJson (makeLogMessage nowIso (recOfList [("message",
        .arr (.cons (.str "Hello ") (.cons (.num 42) (.cons (.str " World") .nil)))),
        ("level", .str "warn")])) "message" = some (.str "Hello 42 World") ∧
    messageFormatJson (makeLogMessage nowIso (recOfList [("message",
        .arr (.cons (.str "Hello ") (.cons (.num 42) (.cons (.str " World") .nil)))),
        ("level", .str "warn")])) "level" = some (.str "warn") ∧
    messageFormatJson (makeLogMessage nowIso (recOfList [("message",
        .arr (.cons (.str "Hello ") (.cons (.num 42) (.cons (.str " World") .nil)))),
        ("level", .str "warn")])) "timestamp" = some (.str nowIso) :=
  ⟨rfl, rfl, rfl⟩

/-- C10: on every value built only from JSON-compatible parts — strings,
numbers, booleans, null and undefined, arrays of such values and plain
objects with such values — `jsonifyForLog` is the identity (and hence
idempotent). -/
theorem jsonifyForLog_jsonCompatible_id (v : JsVal) (h : jsonCompatible v = true) :
    jsonifyForLog v = v := by
  refine @JsVal.rec
    (fun v => jsonCompatible v = true → jsonifyForLog v = v)
    (fun xs => jsonCompatibleArr xs = true → jsonifyArr xs = xs)
    (fun kvs => jsonCompatibleObj kvs = true → jsonifyObj kvs = kvs)
    (fun _ => True)
    ?_ ?_ ?_ ?_ ?_ ?_ ?_ ?_ ?_ ?_ ?_ ?_ ?_ ?_ ?_ ?_ ?_ ?_ v h
  · intro _
    simp [jsonifyForLog]
  · intro _
    simp [jsonifyForLog]
  · intro b _
    simp [jsonifyForLog]
  · intro q _
    simp [jsonifyForLog]
  · intro s _
    simp [jsonifyForLog]
  · intro iso hbad
    simp [jsonCompatible] at hbad
  · intro href hbad
    simp [jsonCompatible] at hbad
  · intro entries _ hbad
    simp [jsonCompatible] at hbad
  · intro elems _ hbad
    simp [jsonCompatible] at hbad
  · intro etype ename emessage estack ecode _ hbad
    simp [jsonCompatible] at hbad
  · intro xs ih hxs
    have h2 : jsonCompatibleArr xs = true := by simpa [jsonCompatible] using hxs
    simp [jsonifyForLog, ih h2]
  · intro kvs ih hkvs
    have h2 : jsonCompatibleObj kvs = true := by simpa [jsonCompatible] using hkvs
    simp [jsonifyForLog, ih h2]
  · intro _
    simp [jsonifyArr]
  · intro v2 rest ihv ihrest hc
    simp only [jsonCompatibleArr, Bool.and_eq_true] at hc
    simp [jsonifyArr, ihv hc.1, ihrest hc.2]
  · intro _
    simp [jsonifyObj]
  · intro k v2 rest ihv ihrest hc
    simp only [jsonCompatibleObj, Bool.and_eq_true] at hc
    simp [jsonifyObj, ihv hc.1, ihrest hc.2]
  · trivial
  · intro k v2 rest ihk ihv ihrest
    trivial

/-- C10 witness: `jsonifyForLog` leaves a concrete JSON-compatible object
tree untouched. -/
theorem jsonifyForLog_jsonCompatible_id_witness :
    jsonCompatible (.obj (.cons "a" (.num 1) (.cons "b"
        (.arr (.cons (.str "x") (.cons .null .nil))) .nil))) = true ∧
    jsonifyForLog (.obj (.cons "a" (.num 1) (.cons "b"
        (.arr (.cons (.str "x") (.cons .null .nil))) .nil))) =
      .obj (.cons "a" (.num 1) (.cons "b"
        (.arr (.cons (.str "x") (.cons .null .nil))) .nil)) :=
  ⟨by decide, jsonifyForLog_jsonCompatible_id
    (.obj (.cons "a" (.num 1) (.cons "b"
      (.arr (.cons (.str "x") (.cons .null .nil))) .nil))) (by decide)⟩

/-- Rendering of the pre-1970 instant stored as epoch milliseconds -300:
the date part renders the seconds slot of epoch second -1 (23:59:59), but
the digit extraction takes the fractional digits of the absolute value
-0.3, so the string shows .300000000 instead of the true .700000000. -/
theorem isoPair_neg300 : BigDate.toISOPair { ms := -300, frac := 0 } = (-1, 3 / 10) := by
  unfold BigDate.toISOPair BigDate.preciseTime bigDecimalsVal
  norm_num
  rw [abs_of_nonneg (by norm_num : (0:ℚ) ≤ 3 / 10), Int.fract]
  norm_num

/-- Parsing the rendered string back: the date keeps 23:59:59.300
(epoch -700 ms) and the sub-millisecond remainder is zero. -/
theorem initString_neg1 : BigDate._initString (-1) (3 / 10) = { ms := -700, frac := 0 } := by
  unfold BigDate._initString bigMod
  rw [show ((-1 : ℤ) % 60) = 59 from by decide]
  rw [show (((59:ℤ):ℚ) + 3 / 10) * 1000000000 / 1000000 = ((59300 : ℤ) : ℚ) from by
    push_cast; ring]
  rw [Int.floor_intCast]
  norm_num

/-- Rendering of the reparsed instant: its digit extraction now yields
.700000000, so the two renderings differ. -/
theorem isoPair_neg700 : BigDate.toISOPair { ms := -700, frac := 0 } = (-1, 7 / 10) := by
  unfold BigDate.toISOPair BigDate.preciseTime bigDecimalsVal
  norm_num
  rw [abs_of_nonneg (by norm_num : (0:ℚ) ≤ 7 / 10), Int.fract]
  norm_num

/-- C6 (counterexample): for the pre-1970 instance with epoch
milliseconds -300 (1969-12-31T23:59:59.700Z), constructing a new instance
from its ISO rendering does not yield an equal instance — the rendering
of the copy differs from the rendering of the original, because the digit
string is extracted from the absolute value of the negative epoch
seconds. -/
theorem isoRoundTrip_counterexample :
    BigDate.toISOPair (BigDate.reparse { ms := -300, frac := 0 }) ≠
      BigDate.toISOPair { ms := -300, frac := 0 } := by
  have hrep : BigDate.reparse { ms := -300, frac := 0 } = { ms := -700, frac := 0 } := by
    unfold BigDate.reparse
    rw [isoPair_neg300]
    exact initString_neg1
  rw [hrep, isoPair_neg700, isoPair_neg300]
  norm_num

/-- C6 (amended): for every `BigDate` whose fractional remainder is
normalized (`0 ≤ _frac < 1e6`) and whose precise epoch value is zero or
at least one microsecond (`preciseTime ≥ 1/1000` ms — below that, on
`(0, 1µs)`, `big.js` prints the seconds value in exponential notation and
the digit extraction is not even well-formed; and for negative epochs the
counterexample above applies), constructing a new instance from the ISO
rendering yields an instance with the identical ISO rendering. -/
theorem isoRoundTrip_amended (a : BigDateRep)
    (h0 : 0 ≤ a.frac) (h1 : a.frac < 1000000)
    (hpt : BigDate.preciseTime a = 0 ∨ 1 / 1000 ≤ BigDate.preciseTime a) :
    BigDate.toISOPair (BigDate.reparse a) = BigDate.toISOPair a := by
  have hpt0 : (0:ℚ) ≤ BigDate.preciseTime a := by
    rcases hpt with h | h
    · rw [h]
    · linarith
  set pt : ℚ := BigDate.preciseTime a with hptdef
  set x : ℚ := pt * (1 / 1000) with hxdef
  have hx0 : (0:ℚ) ≤ x := mul_nonneg hpt0 (by norm_num)
  have habs : |x| = x := abs_of_nonneg hx0
  set k : ℤ := ⌊(a.ms : ℚ) / 1000⌋ with hkdef
  set d : ℚ := Int.fract x with hddef
  have hd0 : (0:ℚ) ≤ d := Int.fract_nonneg x
  have hd1 : d < 1 := Int.fract_lt_one x
  have hpair : BigDate.toISOPair a = (k, d) := by
    unfold BigDate.toISOPair
    rw [← hkdef, ← hptdef, ← hxdef]
    unfold bigDecimalsVal
    rw [habs, ← hddef]
  have hf0 : (0:ℚ) ≤ a.frac * (1 / 1000000) := mul_nonneg h0 (by norm_num)
  have hf1 : a.frac * (1 / 1000000) < 1 := by linarith
  have hxval : x = (a.frac * (1 / 1000000) + (a.ms : ℚ)) * (1 / 1000) := by
    rw [hxdef, hptdef]
    rfl
  have hms_le : (k : ℚ) * 1000 ≤ (a.ms : ℚ) :=
    (le_div_iff₀ (show (0:ℚ) < 1000 by norm_num)).mp (by rw [hkdef]; exact Int.floor_le _)
  have hms_ltQ : (a.ms : ℚ) < ((k + 1 : ℤ) : ℚ) * 1000 := by
    have h2 : (a.ms : ℚ) / 1000 < (k : ℚ) + 1 := by
      rw [hkdef]
      exact Int.lt_floor_add_one _
    have h3 := (div_lt_iff₀ (show (0:ℚ) < 1000 by norm_num)).mp h2
    push_cast
    linarith
  have hms_lt1 : (a.ms : ℚ) + 1 ≤ ((k + 1 : ℤ) : ℚ) * 1000 := by
    have hz : a.ms < (k + 1) * 1000 := by exact_mod_cast hms_ltQ
    have hz2 : a.ms + 1 ≤ (k + 1) * 1000 := hz
    exact_mod_cast hz2
  have hkx : ⌊x⌋ = k := by
    rw [Int.floor_eq_iff]
    constructor
    · nlinarith [hms_le, hf0, hxval]
    · push_cast at hms_lt1
      nlinarith [hms_lt1, hf1, hxval]
  have hxkd : x = (k : ℚ) + d := by
    rw [hddef, ← hkx]
    exact (Int.floor_add_fract x).symm
  set t : ℤ := ⌊d * 1000⌋ with htdef
  have ht0 : 0 ≤ t := by
    rw [htdef]
    exact Int.floor_nonneg.mpr (by positivity)
  have htle : (t : ℚ) ≤ d * 1000 := by rw [htdef]; exact Int.floor_le _
  have ht3 : t < 1000 := by
    rw [htdef]
    exact Int.floor_lt.mpr (by push_cast; linarith)
  have hfrac : (BigDate._initString k d).frac = 1000000 * Int.fract (d * 1000) := by
    show bigMod ((((k % 60 : ℤ) : ℚ) + d) * 1000000000) 1000000 = _
    unfold bigMod
    have hdiv : ((((k % 60 : ℤ) : ℚ) + d) * 1000000000) / 1000000
        = (((k % 60) * 1000 : ℤ) : ℚ) + d * 1000 := by push_cast; ring
    rw [hdiv, Int.floor_int_add, ← htdef]
    simp only [Int.fract]
    push_cast
    ring
  have hmsb : (BigDate._initString k d).ms = k * 1000 + t := by
    show k * 1000 + ⌊d * 1000⌋ = k * 1000 + t
    rw [htdef]
  have hptb : BigDate.preciseTime (BigDate._initString k d) = pt := by
    unfold BigDate.preciseTime
    rw [hfrac, hmsb]
    have hfr : Int.fract (d * 1000) = d * 1000 - (t : ℚ) := by
      simp only [Int.fract, htdef]
    rw [hfr]
    have hpt1000 : pt = 1000 * x := by rw [hxdef]; ring
    rw [hpt1000, hxkd]
    push_cast
    ring
  have hgoal1 : ⌊(((BigDate._initString k d).ms : ℚ)) / 1000⌋ = k := by
    rw [hmsb]
    have hsplit : ((k * 1000 + t : ℤ) : ℚ) / 1000 = (k : ℚ) + (t : ℚ) / 1000 := by
      push_cast
      ring
    rw [hsplit, Int.floor_int_add]
    have h0t : ⌊(t : ℚ) / 1000⌋ = 0 := by
      rw [Int.floor_eq_zero_iff]
      constructor
      · positivity
      · rw [div_lt_one (show (0:ℚ) < 1000 by norm_num)]
        exact_mod_cast ht3
    rw [h0t, add_zero]
  have hrep : BigDate.reparse a = BigDate._initString k d := by
    unfold BigDate.reparse
    rw [hpair]
  rw [hrep, hpair]
  unfold BigDate.toISOPair
  rw [hgoal1, hptb, ← hxdef]
  unfold bigDecimalsVal
  rw [habs, ← hddef]

/-- C6 witness: the round trip at the concrete normalized instance with
epoch milliseconds 1234 and remainder 500 ns. -/
theorem isoRoundTrip_amended_witness :
    (0:ℚ) ≤ 500 ∧ (500:ℚ) < 1000000 ∧
    BigDate.toISOPair (BigDate.reparse { ms := 1234, frac := 500 }) =
      BigDate.toISOPair { ms := 1234, frac := 500 } :=
  ⟨by norm_num, by norm_num,
    isoRoundTrip_amended { ms := 1234, frac := 500 } (by norm_num) (by norm_num)
      (Or.inr (by norm_num [BigDate.preciseTime]))⟩
